import Mathlib

/-!
Verification development for the `mpris-dbus-apps` player-connection core
(`lib/dbus_mpris/player.py` and `lib/helpers.py`).

Python strings are modelled as `List Char`; the Python regular expressions
used by the source are modelled exactly, including the CPython semantics of
`$` in non-MULTILINE mode (`$` matches at the end of the string and also just
before a trailing newline).  Stateful objects are modelled by explicit state
passing; remote (D-Bus) behaviour is modelled by oracles supplied as
parameters.
-/

/-! ## Python string primitives used by the source -/

/-- Model of Python `str.split(sep)` for a one-character separator:
`"".split(sep) == [""]`, separators at the ends produce empty parts. -/
def pySplit (sep : Char) : List Char → List (List Char)
  | [] => [[]]
  | c :: rest =>
    let r := pySplit sep rest
    if c = sep then [] :: r else (c :: r.headD []) :: r.tail

/-- A character matched by the character class `[A-Za-z0-9_]`
(CPython `re` on `str`: ASCII letters, ASCII digits, underscore;
`Char.isAlpha`/`Char.isDigit` are exactly the ASCII ranges). -/
def allowedChar (c : Char) : Bool :=
  c.isAlpha || c.isDigit || c == '_'

/-- Model of `re.search(r"^[A-Za-z0-9_]+$", s) is not None` (CPython, no
`re.MULTILINE`): `^` anchors at position 0 and `$` matches at the end of the
string or just before a single trailing `'\n'`.  So the test succeeds iff `s`
is a nonempty run of `[A-Za-z0-9_]` characters, optionally followed by one
final newline. -/
def segSearchOk (s : List Char) : Bool :=
  (decide (s ≠ []) && s.all allowedChar) ||
    (s.getLast? == some '\n' && decide (s.dropLast ≠ []) && s.dropLast.all allowedChar)

/-! ## `is_object_path_valid` (player.py lines 16-39)

The `@lru_cache()` decorator only memoises a pure function and does not
change its input/output behaviour, so it is not modelled.  The
`isinstance(path, str)` guard is the typed domain of the model (inputs are
strings). -/

/-- Model of `is_object_path_valid(path)` from `lib/dbus_mpris/player.py`. -/
def is_object_path_valid (path : List Char) : Bool :=
  if path.isEmpty then false
  else if !(path.headD ' ' == '/') then false
  else if path.length == 1 then true
  else (pySplit '/' (path.drop 1)).all segSearchOk

/-- The characterisation asserted by the claim: starts with `/` and is either
exactly `/` or every `/`-separated segment after the leading `/` is a
nonempty run of ASCII letters, digits or underscores. -/
def claimPathSpec (path : List Char) : Prop :=
  path.head? = some '/' ∧
    (path = ['/'] ∨
      ∀ seg ∈ pySplit '/' (path.drop 1), seg ≠ [] ∧ ∀ c ∈ seg, allowedChar c = true)

/-- The amended characterisation: as the claim, except that every segment may
additionally carry one single trailing newline (an artefact of CPython `$`
matching before a trailing newline). -/
def amendedPathSpec (path : List Char) : Prop :=
  path.head? = some '/' ∧
    (path = ['/'] ∨
      ∀ seg ∈ pySplit '/' (path.drop 1),
        (seg ≠ [] ∧ ∀ c ∈ seg, allowedChar c = true) ∨
        (∃ t, seg = t ++ ['\n'] ∧ t ≠ [] ∧ ∀ c ∈ t, allowedChar c = true))

/-! ## `to_microsecs` (helpers.py lines 58-82) -/

/-- The 8-character shape `[0-9][0-9]:[0-5][0-9]:[0-5][0-9]` consumed by the
time-format regex. -/
def timeCore8 : List Char → Bool
  | [h1, h2, c1, m1, m2, c2, s1, s2] =>
    h1.isDigit && h2.isDigit && (c1 == ':') &&
      (decide ('0' ≤ m1) && decide (m1 ≤ '5')) && m2.isDigit && (c2 == ':') &&
      (decide ('0' ≤ s1) && decide (s1 ≤ '5')) && s2.isDigit
  | _ => false

/-- Model of `re.search("^[0-9][0-9]:[0-5][0-9]:[0-5][0-9]$", time_str) is not
None`: the 8-character shape, optionally followed by one trailing newline
(CPython `$` semantics, as in `segSearchOk`). -/
def timeSearchOk (l : List Char) : Bool :=
  timeCore8 l || (l.getLast? == some '\n' && timeCore8 l.dropLast)

/-- Digit value of a character, as used by integer parsing. -/
def digitVal (c : Char) : Nat := c.toNat - '0'.toNat

/-- Strip whitespace from both ends of a string (Python `int()` ignores
surrounding whitespace). -/
def stripWs (l : List Char) : List Char :=
  ((l.dropWhile Char.isWhitespace).reverse.dropWhile Char.isWhitespace).reverse

/-- Value of a digit string, most significant first. -/
def digitsVal (l : List Char) : Nat :=
  l.foldl (fun a c => a * 10 + digitVal c) 0

/-- Model of Python `int(s)` on the inputs reachable in `to_microsecs`
(nonnegative, no sign, no underscores): strip surrounding whitespace, then
require a nonempty all-digit string. -/
def pyIntNat (l : List Char) : Option Nat :=
  let t := stripWs l
  if decide (t ≠ []) && t.all Char.isDigit then some (digitsVal t) else none

/-- Model of `to_microsecs(time_str)` from `lib/helpers.py`: `none` models the raised
`ValueError`.  (`@lru_cache` memoises a pure function and is not modelled.) -/
def to_microsecs (l : List Char) : Option Nat :=
  if timeSearchOk l then
    match pySplit ':' l with
    | [hs, ms, ss] =>
      match pyIntNat hs, pyIntNat ms, pyIntNat ss with
      | some hours, some mins, some secs =>
        some ((hours * 60 + mins) * 60000000 + secs * 1000000)
      | _, _, _ => none
    | _ => none
  else none

/-- The time-string pattern asserted by the claim: exactly
`[0-9][0-9]:[0-5][0-9]:[0-5][0-9]`, nothing else. -/
def claimTimePattern (l : List Char) : Prop :=
  ∃ h1 h2 m1 m2 s1 s2 : Char,
    h1.isDigit = true ∧ h2.isDigit = true ∧
    '0' ≤ m1 ∧ m1 ≤ '5' ∧ m2.isDigit = true ∧
    '0' ≤ s1 ∧ s1 ≤ '5' ∧ s2.isDigit = true ∧
    l = [h1, h2, ':', m1, m2, ':', s1, s2]

/-- The amended pattern: as the claim, with optionally one single trailing
newline. -/
def amendedTimePattern (l : List Char) : Prop :=
  ∃ h1 h2 m1 m2 s1 s2 : Char,
    h1.isDigit = true ∧ h2.isDigit = true ∧
    '0' ≤ m1 ∧ m1 ≤ '5' ∧ m2.isDigit = true ∧
    '0' ≤ s1 ∧ s1 ≤ '5' ∧ s2.isDigit = true ∧
    (l = [h1, h2, ':', m1, m2, ':', s1, s2] ∨
     l = [h1, h2, ':', m1, m2, ':', s1, s2, '\n'])

/-! ## PlayerProxy forwarding / reconnect model (player.py lines 163-252)

`reconnect_player(func)` wraps every forwarded command of `PlayerProxy`
(`raise_window`, `play`, `play_pause`, `pause`, `next`, `previous`, `stop`,
`seek`, `set_position`, `get`): call `func`; if it raises, call
`self.connect()` and then call `func` once more, whose outcome propagates.
`PlayerProxy.connect` (wrapped by `handle_player_error`, which catches, logs
and re-raises) forwards to the wrapped handle's `connect`, which rebuilds the
handle's underlying bus connection in place.

The wrapped handle is modelled by an object identity `hid` (Python object
identity of the `Player` instance held in `self._player`) plus a connection
generation `connGen` bumped by each successful `connect`.  Whether a given
bus call raises is supplied by an oracle indexed by how many calls of that
kind happened before. -/

/-- The `Player` object held by `PlayerProxy._player`: an object identity and
the generation of its underlying bus connection. -/
structure Handle where
  hid : Nat
  connGen : Nat
  deriving DecidableEq, Repr

/-- Remote-failure oracle: `opRaises k` tells whether the `k`-th invocation
of the forwarded operation raises, `connectRaises k` whether the `k`-th
`connect` of the wrapped handle raises. -/
structure Oracle where
  opRaises : Nat → Bool
  connectRaises : Nat → Bool

/-- Invocation counters: how many times the forwarded operation ran on the
wrapped handle and how many times the wrapped handle's `connect` ran. -/
structure Counters where
  opCalls : Nat
  connectCalls : Nat
  deriving DecidableEq, Repr

/-- Result of running one forwarded proxy operation: the proxy's
`self._player` reference afterwards, the call counters, and whether an
exception propagated to the caller. -/
structure OpResult where
  player : Option Handle
  counters : Counters
  raised : Bool
  deriving DecidableEq, Repr

/-- A successful `Player.connect()` rebuilds the underlying connection of the
same handle object in place. -/
def handleConnect (h : Handle) : Handle :=
  { h with connGen := h.connGen + 1 }

/-- Model of `PlayerProxy.connect` (lines 198-201): decorated with
`handle_player_error` (re-raises after logging); body is a no-op when no
handle is attached, otherwise forwards to the wrapped handle's `connect`. -/
def proxyConnect (o : Oracle) (p : Option Handle) (c : Counters) :
    Option Handle × Counters × Bool :=
  match p with
  | none => (none, c, false)
  | some h =>
    let c' := { c with connectCalls := c.connectCalls + 1 }
    if o.connectRaises c.connectCalls then (some h, c', true)
    else (some (handleConnect h), c', false)

/-- Model of `PlayerProxy.set_player` (lines 195-196): replaces the wrapped-handle
reference. -/
def set_player (_p : Option Handle) (h : Handle) : Option Handle :=
  some h

/-- One forwarded command of `PlayerProxy` under the `reconnect_player`
decorator.  The nine command methods (`raise_window`, `play`, `play_pause`,
`pause`, `next`, `previous`, `stop`, `seek`, `set_position`) all have this
exact decorated body, differing only in which handle method is forwarded
(for `play_pause`, the inner `handle_player_error` wrapper catches and
re-raises, which does not change the outcome). -/
def forwardOp (o : Oracle) (p : Option Handle) (c : Counters) : OpResult :=
  match p with
  | none => ⟨none, c, false⟩
  | some h =>
    let c1 := { c with opCalls := c.opCalls + 1 }
    if o.opRaises c.opCalls then
      match proxyConnect o (some h) c1 with
      | (p2, c2, true) => ⟨p2, c2, true⟩
      | (p2, c2, false) =>
        let c3 := { c2 with opCalls := c2.opCalls + 1 }
        ⟨p2, c3, o.opRaises c2.opCalls⟩
    else ⟨some h, c1, false⟩

/-! ## The handle read surface and `PlayerProxy` queries (player.py 249-343,
414-476, 499-599)

`Player_pydbus` and `Player_dbus_python` expose the same read surface; its
values (what the remote player currently reports) are modelled as fields. -/

/-- A D-Bus value as returned by a `Properties.Get` call. -/
inductive PyV
  | s (v : String)
  | i (v : Int)
  | b (v : Bool)
  deriving DecidableEq, Repr

/-- The read surface of an attached `Player` handle: the values its
properties currently report, and its `get(property_name, interface_name)`
method. -/
structure HandleData where
  name_v : String
  ext_name_v : String
  playback_status_v : String
  position_v : Int
  metadata_v : List (String × List Char)
  can_control_v : Bool
  can_seek_v : Bool
  can_pause_v : Bool
  can_play_v : Bool
  get_v : String → String → PyV

/-- Model of `Player.trackid` (lines 574-583 / 451-460): the `"mpris:trackid"` entry
of the metadata, degrading to the empty string when the key is absent. -/
def trackid_of (md : List (String × List Char)) : List Char :=
  match md.lookup "mpris:trackid" with
  | some v => v
  | none => []

/-- The handle's `trackid` property. -/
def player_trackid (h : HandleData) : List Char :=
  trackid_of h.metadata_v

/-- The handle's `get(property_name, interface_name)` method (lines
499-502): forwards to the properties interface; modelled by the handle's
`get_v` field. -/
def player_get (h : HandleData) (property_name interface_name : String) : PyV :=
  h.get_v property_name interface_name

/-- Model of `PlayerProxy.name` (lines 275-280): forwards when a handle is attached,
returns `None` otherwise. -/
def proxy_name (p : Option HandleData) : Option String :=
  p.map HandleData.name_v

/-- Model of `PlayerProxy.ext_name` (lines 282-287). -/
def proxy_ext_name (p : Option HandleData) : Option String :=
  p.map HandleData.ext_name_v

/-- Model of `PlayerProxy.playback_status` (lines 289-294). -/
def proxy_playback_status (p : Option HandleData) : Option String :=
  p.map HandleData.playback_status_v

/-- Model of `PlayerProxy.position` (lines 296-301). -/
def proxy_position (p : Option HandleData) : Option Int :=
  p.map HandleData.position_v

/-- Model of `PlayerProxy.metadata` (lines 303-308). -/
def proxy_metadata (p : Option HandleData) : Option (List (String × List Char)) :=
  p.map HandleData.metadata_v

/-- Model of `PlayerProxy.trackid` (lines 310-315). -/
def proxy_trackid (p : Option HandleData) : Option (List Char) :=
  p.map player_trackid

/-- Model of `PlayerProxy.get` (lines 249-252).  The source body is
`if self._player: self._player.get(interface_name, property_name)` with no
`return` statement (and the `reconnect_player` wrapper also discards the
inner return value), so the method always returns `None`; the second
component records the `(first, second)` positional arguments passed to the
handle's `get` (which declares them in the order
`(property_name, interface_name)`). -/
def proxy_get (p : Option HandleData) (interface_name property_name : String) :
    Option PyV × List (String × String) :=
  match p with
  | none => (none, [])
  | some h =>
    let _ := player_get h interface_name property_name
    (none, [(interface_name, property_name)])

/-- One `cached_property` capability slot of `PlayerProxy` (lines 317-343):
on first access run the body (`None` when no handle is attached, else the
handle's flag) and store the result in the instance dictionary; on later
accesses return the stored value unchanged.  The four flags
(`can_control`, `can_seek`, `can_pause`, `can_play`) have this exact body,
differing only in the forwarded handle attribute `read`. -/
def proxy_cap (read : HandleData → Bool) (cache : Option (Option Bool))
    (p : Option HandleData) : Option Bool × Option (Option Bool) :=
  match cache with
  | some v => (v, some v)
  | none =>
    match p with
    | none => (none, some none)
    | some h => (some (read h), some (some (read h)))

/-- Model of `PlayerProxy.can_control`. -/
def proxy_can_control := proxy_cap HandleData.can_control_v

/-- Model of `PlayerProxy.can_seek`. -/
def proxy_can_seek := proxy_cap HandleData.can_seek_v

/-- Model of `PlayerProxy.can_pause`. -/
def proxy_can_pause := proxy_cap HandleData.can_pause_v

/-- Model of `PlayerProxy.can_play`. -/
def proxy_can_play := proxy_cap HandleData.can_play_v

/-! ## `Player.set_position` (player.py lines 528-540 and, verbatim the same
body, lines 400-412) -/

/-- A remote bus call issued by `set_position`. -/
inductive Call
  | setPositionC (tid : List Char) (pos : Int)
  | seekC (offset : Int)
  deriving DecidableEq, Repr

/-- Model of `set_position(to_position)`: if the current `trackid` is a valid object
path, call `SetPosition(trackid, to_position)`; otherwise read the current
position and issue `Seek(to_position - cur_pos)` (via `self.seek`, which
performs exactly one `Seek` bus call). -/
def set_position (h : HandleData) (to_position : Int) : List Call :=
  if is_object_path_valid (player_trackid h) then
    [Call.setPositionC (player_trackid h) to_position]
  else
    [Call.seekC (to_position - h.position_v)]

/-- Number of `Seek` calls in a call trace. -/
def countSeeks (l : List Call) : Nat :=
  l.countP fun c => match c with | Call.seekC _ => true | _ => false

/-- Number of `SetPosition` calls in a call trace. -/
def countSetPositions (l : List Call) : Nat :=
  l.countP fun c => match c with | Call.setPositionC _ _ => true | _ => false

/-! ## Handle-level capability caching (player.py lines 585-599 / 462-476)

Each of `can_control`, `can_seek`, `can_pause`, `can_play` on
`Player_pydbus` / `Player_dbus_python` is a `@cached_property` whose body is
one `self.get(property_name="Can...")`, i.e. one `Properties.Get` bus call.
`cached_property` stores the first result in the instance dictionary and
never recomputes it; `connect()` rebuilds the connection objects and does not
touch the instance dictionary entries of the cached properties.  The state
records the four cache slots, the log of `Get(property_name)` bus calls, and
the connection generation. -/

/-- Remote property surface: the value the `k`-th `Get` of each capability
property would report (the remote may change over time). -/
structure Remote where
  canControl : Nat → Bool
  canSeek : Nat → Bool
  canPause : Nat → Bool
  canPlay : Nat → Bool

/-- Instance state of a `Player_pydbus` handle, restricted to what the
capability properties touch. -/
structure PState where
  cacheCC : Option Bool
  cacheCS : Option Bool
  cacheCP : Option Bool
  cacheCPl : Option Bool
  fetchLog : List String
  connGen : Nat
  deriving DecidableEq, Repr

/-- Number of underlying `Get(prop)` bus calls performed so far. -/
def countFetches (s : PState) (prop : String) : Nat :=
  s.fetchLog.count prop

/-- A freshly built handle: `__init__` runs `connect()` once; no cached
property has been computed yet. -/
def freshPState : PState :=
  ⟨none, none, none, none, [], 1⟩

/-- Model of `Player_pydbus.connect` / `Player_dbus_python.connect`: rebuilds the
underlying connection objects in place; the cached-property slots are not
touched. -/
def pstate_connect (s : PState) : PState :=
  { s with connGen := s.connGen + 1 }

/-- Model of `@cached_property can_control` (lines 585-587). -/
def can_control_run (r : Remote) (s : PState) : Bool × PState :=
  match s.cacheCC with
  | some v => (v, s)
  | none =>
    let v := r.canControl (countFetches s "CanControl")
    (v, { s with cacheCC := some v, fetchLog := s.fetchLog ++ ["CanControl"] })

/-- Model of `@cached_property can_seek` (lines 589-591). -/
def can_seek_run (r : Remote) (s : PState) : Bool × PState :=
  match s.cacheCS with
  | some v => (v, s)
  | none =>
    let v := r.canSeek (countFetches s "CanSeek")
    (v, { s with cacheCS := some v, fetchLog := s.fetchLog ++ ["CanSeek"] })

/-- Model of `@cached_property can_pause` (lines 593-595). -/
def can_pause_run (r : Remote) (s : PState) : Bool × PState :=
  match s.cacheCP with
  | some v => (v, s)
  | none =>
    let v := r.canPause (countFetches s "CanPause")
    (v, { s with cacheCP := some v, fetchLog := s.fetchLog ++ ["CanPause"] })

/-- Model of `@cached_property can_play` (lines 597-599). -/
def can_play_run (r : Remote) (s : PState) : Bool × PState :=
  match s.cacheCPl with
  | some v => (v, s)
  | none =>
    let v := r.canPlay (countFetches s "CanPlay")
    (v, { s with cacheCPl := some v, fetchLog := s.fetchLog ++ ["CanPlay"] })

/-- One access to the handle during its lifetime: a capability query or a
reconnect. -/
inductive CapStep
  | qCC | qCS | qCP | qCPl | reconn
  deriving DecidableEq, Repr

/-- Effect of one access on the handle state. -/
def capStep (r : Remote) (s : PState) : CapStep → PState
  | CapStep.qCC => (can_control_run r s).2
  | CapStep.qCS => (can_seek_run r s).2
  | CapStep.qCP => (can_pause_run r s).2
  | CapStep.qCPl => (can_play_run r s).2
  | CapStep.reconn => pstate_connect s

/-- Any sequence of accesses over the handle's lifetime. -/
def capRun (r : Remote) (steps : List CapStep) (s : PState) : PState :=
  steps.foldl (capStep r) s

/-! ## `PlayerFactory` (player.py lines 602-657)

The class attribute `PlayerFactory.unuseable_player_names` is the
process-wide memo; it is threaded explicitly as `memo`.  Whether the
validating construction `PlayerFactory.get_player` of a given service
succeeds (versus raising `PlayerCreationError`) is supplied by the oracle
`constructible`.  Besides the returned mapping, the model returns the final
memo and the list of services against which a construction was attempted. -/

/-- Does `sub` occur as a contiguous subsequence of `l`?  Models Python
`sub in s` on strings. -/
def startsWithSeq : List Char → List Char → Bool
  | [], _ => true
  | _ :: _, [] => false
  | p :: ps, c :: cs => p == c && startsWithSeq ps cs

/-- Python substring containment `sub in s`. -/
def containsSeq (sub : List Char) : List Char → Bool
  | [] => startsWithSeq sub []
  | c :: rest => startsWithSeq sub (c :: rest) || containsSeq sub rest

/-- The well-known service prefix `"org.mpris.MediaPlayer2"` (length 23). -/
def mediaPlayerPfx : String := "org.mpris.MediaPlayer2"

/-- Model of `service[media_player_prefix_len + 1:]`. -/
def serviceSuffix (service : String) : String :=
  ((service.toList).drop 24).asString

/-- Python dict assignment `d[k] = v` on an insertion-ordered dictionary:
overwrite in place if the key exists, else append. -/
def dictInsert (m : List (String × String)) (k v : String) :
    List (String × String) :=
  if m.any (fun kv => kv.1 == k) then
    m.map fun kv => if kv.1 == k then (k, v) else kv
  else m ++ [(k, v)]

/-- The loop of `PlayerFactory.get_running_player_names` (lines 626-639):
for each advertised service containing the MPRIS prefix, skip it if it is in
the memo, otherwise attempt a validating construction; on success record the
`(suffix, service)` pair, on `PlayerCreationError` append the service to the
memo. -/
def grpnLoop (constructible : String → Bool) :
    List String → List (String × String) → List String → List String →
    List (String × String) × List String × List String
  | [], acc, memo, att => (acc, memo, att)
  | s :: rest, acc, memo, att =>
    if containsSeq mediaPlayerPfx.toList s.toList then
      if s ∈ memo then grpnLoop constructible rest acc memo att
      else if constructible s then
        grpnLoop constructible rest (dictInsert acc (serviceSuffix s) s) memo (att ++ [s])
      else
        grpnLoop constructible rest acc (memo ++ [s]) (att ++ [s])
    else grpnLoop constructible rest acc memo att

/-- Model of `PlayerFactory.get_running_player_names`, given the bus-enumerated
service names and the current memo.  Returns
`(mapping, final memo, attempted constructions)`. -/
def get_running_player_names (constructible : String → Bool)
    (services : List String) (memo : List String) :
    List (String × String) × List String × List String :=
  grpnLoop constructible services [] memo []

/-! ## `PlayerFactory.get_player` (player.py lines 641-657)

Python `try/except` semantics: the `except` clauses of a `try` statement do
not apply to exceptions raised inside one of its own handlers.  The body
first evaluates `type(pydbus)` (raising `NameError` when the `pydbus` import
failed) and then constructs `Player_pydbus`; the `except (NameError,
KeyError)` handler constructs `Player_dbus_python` — whose failures
therefore escape unconverted — and the remaining handlers convert failures
of the `try` body into `PlayerCreationError`. -/

/-- Python exceptions relevant to `get_player`. -/
inductive PyExc
  | nameError
  | keyError
  | playerConnection
  | playerCreation (cause : PyExc)
  | generic
  deriving DecidableEq, Repr

/-- Is this exception a `PlayerCreationError`? -/
def isCreationError : PyExc → Bool
  | PyExc.playerCreation _ => true
  | _ => false

/-- Construction result markers: which binding built the returned
`PlayerProxy`. -/
inductive Built
  | viaPydbus
  | viaDbusPython
  deriving DecidableEq, Repr

/-- The `except (NameError, KeyError)` handler body: construct
`Player_dbus_python` and wrap it in a `PlayerProxy`.  An exception raised
here propagates as-is: the later `except` clauses of the same `try` do not
catch it. -/
def dbusPythonFallback (dbusPythonOutcome : Option PyExc) : Except PyExc Built :=
  match dbusPythonOutcome with
  | none => Except.ok Built.viaDbusPython
  | some e => Except.error e

/-- Model of `PlayerFactory.get_player(fq_player_name, short_player_name)`.
`pydbusAvail` is whether the `pydbus` import succeeded; the two outcome
parameters give the exception (if any) raised by constructing
`Player_pydbus` resp. `Player_dbus_python` for this identity. -/
def get_player (pydbusAvail : Bool) (pydbusOutcome : Option PyExc)
    (dbusPythonOutcome : Option PyExc) : Except PyExc Built :=
  if pydbusAvail then
    match pydbusOutcome with
    | none => Except.ok Built.viaPydbus
    | some e =>
      if e = PyExc.nameError ∨ e = PyExc.keyError then
        dbusPythonFallback dbusPythonOutcome
      else
        Except.error (PyExc.playerCreation e)
  else
    dbusPythonFallback dbusPythonOutcome

/-! ## Concrete fixtures used by witnesses and counterexamples -/

/-- A handle whose remote reports a valid track id. -/
def hValid : HandleData :=
  { name_v := "org.mpris.MediaPlayer2.vlc"
    ext_name_v := "vlc"
    playback_status_v := "Playing"
    position_v := 5
    metadata_v := [("mpris:trackid", "/org/videolan/vlc/playlist/1".toList)]
    can_control_v := true
    can_seek_v := true
    can_pause_v := true
    can_play_v := true
    get_v := fun _ _ => PyV.s "Playing" }

/-- A handle whose remote reports no `mpris:trackid` key at all. -/
def hNoTid : HandleData :=
  { hValid with metadata_v := [] }

/-- An oracle under which the forwarded operation raises on its first
invocation only and reconnection succeeds. -/
def oracleOpFailThenOk : Oracle :=
  ⟨fun n => n == 0, fun _ => false⟩

/-- An oracle under which both the forwarded operation and reconnection
always raise. -/
def oracleAllFail : Oracle :=
  ⟨fun _ => true, fun _ => true⟩


/-! ## Helper lemmas -/

/-- Invariant tying each capability cache slot to the number of underlying
`Get` calls for its property. -/
def capInv (s : PState) : Prop :=
  countFetches s "CanControl" = (if s.cacheCC.isSome then 1 else 0) ∧
  countFetches s "CanSeek" = (if s.cacheCS.isSome then 1 else 0) ∧
  countFetches s "CanPause" = (if s.cacheCP.isSome then 1 else 0) ∧
  countFetches s "CanPlay" = (if s.cacheCPl.isSome then 1 else 0)

theorem capInv_fresh : capInv freshPState := by
  refine ⟨rfl, rfl, rfl, rfl⟩

theorem capInv_step (r : Remote) (s : PState) (st : CapStep) (h : capInv s) :
    capInv (capStep r s st) := by
  obtain ⟨h1, h2, h3, h4⟩ := h
  cases st with
  | qCC =>
    unfold capStep can_control_run
    cases hcc : s.cacheCC with
    | some v => exact ⟨h1, h2, h3, h4⟩
    | none =>
      refine ⟨?_, ?_, ?_, ?_⟩ <;>
        simp_all [countFetches, List.count_append, hcc]
  | qCS =>
    unfold capStep can_seek_run
    cases hcs : s.cacheCS with
    | some v => exact ⟨h1, h2, h3, h4⟩
    | none =>
      refine ⟨?_, ?_, ?_, ?_⟩ <;>
        simp_all [countFetches, List.count_append, hcs]
  | qCP =>
    unfold capStep can_pause_run
    cases hcp : s.cacheCP with
    | some v => exact ⟨h1, h2, h3, h4⟩
    | none =>
      refine ⟨?_, ?_, ?_, ?_⟩ <;>
        simp_all [countFetches, List.count_append, hcp]
  | qCPl =>
    unfold capStep can_play_run
    cases hcpl : s.cacheCPl with
    | some v => exact ⟨h1, h2, h3, h4⟩
    | none =>
      refine ⟨?_, ?_, ?_, ?_⟩ <;>
        simp_all [countFetches, List.count_append, hcpl]
  | reconn => exact ⟨h1, h2, h3, h4⟩

theorem capInv_run (r : Remote) (steps : List CapStep) (s : PState)
    (h : capInv s) : capInv (capRun r steps s) := by
  induction steps generalizing s with
  | nil => exact h
  | cons st rest ih => exact ih _ (capInv_step r s st h)

theorem mem_dictInsert {m : List (String × String)} {k v : String}
    {kv : String × String} (h : kv ∈ dictInsert m k v) : kv ∈ m ∨ kv.2 = v := by
  unfold dictInsert at h
  split at h
  · obtain ⟨x, hx, hxeq⟩ := List.mem_map.1 h
    by_cases hk : x.1 == k
    · right; simp [hk] at hxeq; simp [← hxeq]
    · left; simp [hk] at hxeq; simpa [← hxeq] using hx
  · rcases List.mem_append.1 h with hx | hx
    · exact Or.inl hx
    · right; simp at hx; simp [hx]

/-- Services in the memo are skipped: they are never attempted and never
appear as a value of the returned mapping. -/
theorem grpn_skips_memo (c : String → Bool) (services : List String)
    (acc : List (String × String)) (memo att : List String) (name : String)
    (hmem : name ∈ memo) (hatt : name ∉ att)
    (hacc : ∀ kv ∈ acc, kv.2 ≠ name) :
    name ∉ (grpnLoop c services acc memo att).2.2 ∧
    ∀ kv ∈ (grpnLoop c services acc memo att).1, kv.2 ≠ name := by
  induction services generalizing acc memo att with
  | nil => exact ⟨hatt, hacc⟩
  | cons s rest ih =>
    simp only [grpnLoop]
    split
    · split
      · exact ih acc memo att hmem hatt hacc
      · rename_i hinfix hsmem
        have hne : s ≠ name := fun he => hsmem (he ▸ hmem)
        have hatt' : name ∉ att ++ [s] := by
          intro hx
          rcases List.mem_append.1 hx with hx | hx
          · exact hatt hx
          · simp at hx; exact hne hx.symm
        split
        · refine ih _ memo (att ++ [s]) hmem hatt' ?_
          intro kv hkv
          rcases mem_dictInsert hkv with hkv | hkv
          · exact hacc kv hkv
          · rw [hkv]; exact hne
        · refine ih acc (memo ++ [s]) (att ++ [s]) ?_ hatt' hacc
          exact List.mem_append.2 (Or.inl hmem)
    · exact ih acc memo att hmem hatt hacc

/-- The memo only grows, and every attempted service whose construction
fails ends up in the final memo. -/
theorem grpn_memo_growth (c : String → Bool) (services : List String)
    (acc : List (String × String)) (memo att : List String)
    (hpre : ∀ s ∈ att, c s = false → s ∈ memo) :
    (∀ x ∈ memo, x ∈ (grpnLoop c services acc memo att).2.1) ∧
    (∀ s ∈ (grpnLoop c services acc memo att).2.2, c s = false →
      s ∈ (grpnLoop c services acc memo att).2.1) := by
  induction services generalizing acc memo att with
  | nil => exact ⟨fun x hx => hx, hpre⟩
  | cons s rest ih =>
    simp only [grpnLoop]
    split
    · split
      · exact ih acc memo att hpre
      · split
        · rename_i hcons
          refine ih _ memo (att ++ [s]) ?_
          intro x hx hxf
          rcases List.mem_append.1 hx with hx | hx
          · exact hpre x hx hxf
          · simp at hx; subst hx; rw [hcons] at hxf; cases hxf
        · rename_i hcons
          have hres := ih acc (memo ++ [s]) (att ++ [s]) ?_
          · exact ⟨fun x hx => hres.1 x (List.mem_append.2 (Or.inl hx)), hres.2⟩
          · intro x hx hxf
            rcases List.mem_append.1 hx with hx | hx
            · exact List.mem_append.2 (Or.inl (hpre x hx hxf))
            · exact List.mem_append.2 (Or.inr hx)
    · exact ih acc memo att hpre

/-- Every value of the returned mapping passed the validating
construction. -/
theorem grpn_values_constructible (c : String → Bool) (services : List String)
    (acc : List (String × String)) (memo att : List String)
    (hacc : ∀ kv ∈ acc, c kv.2 = true) :
    ∀ kv ∈ (grpnLoop c services acc memo att).1, c kv.2 = true := by
  induction services generalizing acc memo att with
  | nil => exact hacc
  | cons s rest ih =>
    simp only [grpnLoop]
    split
    · split
      · exact ih acc memo att hacc
      · split
        · rename_i hcons
          refine ih _ memo (att ++ [s]) ?_
          intro kv hkv
          rcases mem_dictInsert hkv with hkv | hkv
          · exact hacc kv hkv
          · rw [hkv]; exact hcons
        · exact ih acc (memo ++ [s]) (att ++ [s]) hacc
    · exact ih acc memo att hacc

/-- Characterisation of one segment test:
`re.search("^[A-Za-z0-9_]+$", s)` succeeds iff `s` is a nonempty allowed run
or such a run followed by one trailing newline. -/
theorem segSearchOk_iff (s : List Char) :
    segSearchOk s = true ↔
      (s ≠ [] ∧ ∀ c ∈ s, allowedChar c = true) ∨
      (∃ t, s = t ++ ['\n'] ∧ t ≠ [] ∧ ∀ c ∈ t, allowedChar c = true) := by
  rcases List.eq_nil_or_concat s with rfl | ⟨t, a, rfl⟩
  · simp [segSearchOk]
  · simp only [List.concat_eq_append, segSearchOk, List.getLast?_concat,
      List.dropLast_concat, Bool.or_eq_true, Bool.and_eq_true, decide_eq_true_eq,
      List.all_eq_true, beq_iff_eq, Option.some.injEq]
    constructor
    · rintro (⟨hne, hall⟩ | ⟨⟨ha, hne⟩, hall⟩)
      · exact Or.inl ⟨hne, hall⟩
      · subst ha; exact Or.inr ⟨t, rfl, hne, hall⟩
    · rintro (⟨hne, hall⟩ | ⟨t', ht', hne, hall⟩)
      · exact Or.inl ⟨hne, hall⟩
      · have ha : a = '\n' := by
          have h1 := congrArg List.getLast? ht'
          simpa [List.getLast?_concat] using h1
        have ht : t = t' := by
          have h2 := congrArg List.dropLast ht'
          simpa [List.dropLast_concat] using h2
        subst ha; subst ht
        exact Or.inr ⟨⟨rfl, hne⟩, hall⟩

theorem digit_ne_colon (c : Char) (h : c.isDigit = true) : c ≠ ':' := by
  intro hc; subst hc; exact absurd h (by decide)

theorem digit_not_ws (c : Char) (h : c.isDigit = true) : c.isWhitespace = false := by
  by_cases h1 : c = ' '
  · subst h1; exact absurd h (by decide)
  by_cases h2 : c = '\t'
  · subst h2; exact absurd h (by decide)
  by_cases h3 : c = '\r'
  · subst h3; exact absurd h (by decide)
  by_cases h4 : c = '\n'
  · subst h4; exact absurd h (by decide)
  simp [Char.isWhitespace, h1, h2, h3, h4]

theorem range05_isDigit (c : Char) (h0 : '0' ≤ c) (h5 : c ≤ '5') :
    c.isDigit = true := by
  have h9 : c ≤ '9' := le_trans h5 (by decide)
  simp only [Char.isDigit, Bool.and_eq_true, decide_eq_true_eq]
  exact ⟨h0, h9⟩

theorem pySplit_colon8 (a b d e f g : Char)
    (ha : a ≠ ':') (hb : b ≠ ':') (hd : d ≠ ':') (he : e ≠ ':')
    (hf : f ≠ ':') (hg : g ≠ ':') :
    pySplit ':' [a, b, ':', d, e, ':', f, g] = [[a, b], [d, e], [f, g]] := by
  simp [pySplit, ha, hb, hd, he, hf, hg]

theorem pySplit_colon9 (a b d e f g : Char)
    (ha : a ≠ ':') (hb : b ≠ ':') (hd : d ≠ ':') (he : e ≠ ':')
    (hf : f ≠ ':') (hg : g ≠ ':') :
    pySplit ':' [a, b, ':', d, e, ':', f, g, '\n']
      = [[a, b], [d, e], [f, g, '\n']] := by
  simp [pySplit, ha, hb, hd, he, hf, hg]

theorem stripWs_digits2 (a b : Char)
    (ha : a.isWhitespace = false) (hb : b.isWhitespace = false) :
    stripWs [a, b] = [a, b] := by
  simp [stripWs, List.dropWhile, ha, hb]

theorem stripWs_digits2_nl (a b : Char)
    (ha : a.isWhitespace = false) (hb : b.isWhitespace = false) :
    stripWs [a, b, '\n'] = [a, b] := by
  simp [stripWs, List.dropWhile, ha, hb]

theorem pyIntNat_digits2 (a b : Char)
    (ha : a.isDigit = true) (hb : b.isDigit = true) :
    pyIntNat [a, b] = some (10 * digitVal a + digitVal b) := by
  unfold pyIntNat
  rw [stripWs_digits2 a b (digit_not_ws a ha) (digit_not_ws b hb)]
  simp [ha, hb, digitsVal]
  omega

theorem pyIntNat_digits2_nl (a b : Char)
    (ha : a.isDigit = true) (hb : b.isDigit = true) :
    pyIntNat [a, b, '\n'] = some (10 * digitVal a + digitVal b) := by
  unfold pyIntNat
  rw [stripWs_digits2_nl a b (digit_not_ws a ha) (digit_not_ws b hb)]
  simp [ha, hb, digitsVal]
  omega

theorem timeCore8_build (a b d e f g : Char)
    (ha : a.isDigit = true) (hb : b.isDigit = true)
    (hd0 : '0' ≤ d) (hd5 : d ≤ '5') (he : e.isDigit = true)
    (hf0 : '0' ≤ f) (hf5 : f ≤ '5') (hg : g.isDigit = true) :
    timeCore8 [a, b, ':', d, e, ':', f, g] = true := by
  simp [timeCore8, ha, hb, he, hg, hd0, hd5, hf0, hf5]

theorem timeCore8_shape (l : List Char) (h : timeCore8 l = true) :
    ∃ a b d e f g : Char, a.isDigit = true ∧ b.isDigit = true ∧
      '0' ≤ d ∧ d ≤ '5' ∧ e.isDigit = true ∧
      '0' ≤ f ∧ f ≤ '5' ∧ g.isDigit = true ∧
      l = [a, b, ':', d, e, ':', f, g] := by
  rcases l with - | ⟨a, - | ⟨b, - | ⟨c1, - | ⟨d, - | ⟨e, - | ⟨c2, - | ⟨f, - | ⟨g,
    - | ⟨x, tl⟩⟩⟩⟩⟩⟩⟩⟩⟩ <;>
    simp [timeCore8] at h
  obtain ⟨⟨⟨⟨⟨⟨⟨ha, hb⟩, rfl⟩, hd0, hd5⟩, he⟩, rfl⟩, hf0, hf5⟩, hg⟩ := h
  exact ⟨a, b, d, e, f, g, ha, hb, hd0, hd5, he, hf0, hf5, hg, rfl⟩

theorem to_microsecs_core8 (a b d e f g : Char)
    (ha : a.isDigit = true) (hb : b.isDigit = true)
    (hd0 : '0' ≤ d) (hd5 : d ≤ '5') (he : e.isDigit = true)
    (hf0 : '0' ≤ f) (hf5 : f ≤ '5') (hg : g.isDigit = true) :
    to_microsecs [a, b, ':', d, e, ':', f, g]
      = some (((10 * digitVal a + digitVal b) * 60
            + (10 * digitVal d + digitVal e)) * 60000000
          + (10 * digitVal f + digitVal g) * 1000000) := by
  have hd := range05_isDigit d hd0 hd5
  have hf := range05_isDigit f hf0 hf5
  have hts : timeSearchOk [a, b, ':', d, e, ':', f, g] = true := by
    unfold timeSearchOk
    rw [timeCore8_build a b d e f g ha hb hd0 hd5 he hf0 hf5 hg]
    rfl
  simp only [to_microsecs, hts, if_true,
    pySplit_colon8 a b d e f g (digit_ne_colon a ha) (digit_ne_colon b hb)
      (digit_ne_colon d hd) (digit_ne_colon e he) (digit_ne_colon f hf)
      (digit_ne_colon g hg),
    pyIntNat_digits2 a b ha hb, pyIntNat_digits2 d e hd he,
    pyIntNat_digits2 f g hf hg]

theorem to_microsecs_core8_nl (a b d e f g : Char)
    (ha : a.isDigit = true) (hb : b.isDigit = true)
    (hd0 : '0' ≤ d) (hd5 : d ≤ '5') (he : e.isDigit = true)
    (hf0 : '0' ≤ f) (hf5 : f ≤ '5') (hg : g.isDigit = true) :
    to_microsecs [a, b, ':', d, e, ':', f, g, '\n']
      = some (((10 * digitVal a + digitVal b) * 60
            + (10 * digitVal d + digitVal e)) * 60000000
          + (10 * digitVal f + digitVal g) * 1000000) := by
  have hd := range05_isDigit d hd0 hd5
  have hf := range05_isDigit f hf0 hf5
  have hts : timeSearchOk [a, b, ':', d, e, ':', f, g, '\n'] = true := by
    unfold timeSearchOk
    have hlast : ([a, b, ':', d, e, ':', f, g, '\n'] : List Char).getLast?
        = some '\n' := rfl
    have hdrop : ([a, b, ':', d, e, ':', f, g, '\n'] : List Char).dropLast
        = [a, b, ':', d, e, ':', f, g] := rfl
    rw [hlast, hdrop, timeCore8_build a b d e f g ha hb hd0 hd5 he hf0 hf5 hg]
    rfl
  simp only [to_microsecs, hts, if_true,
    pySplit_colon9 a b d e f g (digit_ne_colon a ha) (digit_ne_colon b hb)
      (digit_ne_colon d hd) (digit_ne_colon e he) (digit_ne_colon f hf)
      (digit_ne_colon g hg),
    pyIntNat_digits2 a b ha hb, pyIntNat_digits2 d e hd he,
    pyIntNat_digits2_nl f g hf hg]

/-! # Claims -/

/-- C1, counterexample: under an oracle where the first invocation raises
and the reconnect attempt itself raises (`PlayerConnectionError` — exactly
the situation of a player that has gone away), the operation is invoked only
once: there is no retry, contradicting the claim's "retries the original
operation exactly once". One reconnect attempt is made and one error
propagates. -/
theorem C1_reconnect_retry_counterexample :
    (forwardOp oracleAllFail (some ⟨0, 0⟩) ⟨0, 0⟩).counters.opCalls = 1 ∧
    ¬ (forwardOp oracleAllFail (some ⟨0, 0⟩) ⟨0, 0⟩).counters.opCalls = 2 ∧
    (forwardOp oracleAllFail (some ⟨0, 0⟩) ⟨0, 0⟩).counters.connectCalls = 1 ∧
    (forwardOp oracleAllFail (some ⟨0, 0⟩) ⟨0, 0⟩).raised = true := by
  decide

/-- C1, amended: if the wrapped handle raises on the first invocation, the
proxy calls the handle's reconnect routine exactly once; if reconnection
succeeds, it retries the operation exactly once and exactly the retry's
failure (if any) propagates; if reconnection itself raises, that single
error propagates and the operation is not retried.  In all cases there is
never a second reconnection nor a second retry. -/
theorem C1_reconnect_retry_amended (o : Oracle) (h : Handle)
    (hfail : o.opRaises 0 = true) :
    (forwardOp o (some h) ⟨0, 0⟩).counters.connectCalls = 1 ∧
    (forwardOp o (some h) ⟨0, 0⟩).counters.opCalls ≤ 2 ∧
    (o.connectRaises 0 = false →
      (forwardOp o (some h) ⟨0, 0⟩).counters.opCalls = 2 ∧
      (forwardOp o (some h) ⟨0, 0⟩).raised = o.opRaises 1) ∧
    (o.connectRaises 0 = true →
      (forwardOp o (some h) ⟨0, 0⟩).counters.opCalls = 1 ∧
      (forwardOp o (some h) ⟨0, 0⟩).raised = true) := by
  cases hc : o.connectRaises 0 <;>
    simp [forwardOp, proxyConnect, hfail, hc]

/-- C1, witness for the amended theorem at a concrete oracle (first call
fails, reconnect succeeds, retry succeeds). -/
theorem C1_reconnect_retry_amended_witness :
    (forwardOp oracleOpFailThenOk (some ⟨0, 0⟩) ⟨0, 0⟩).counters.connectCalls = 1 ∧
    (forwardOp oracleOpFailThenOk (some ⟨0, 0⟩) ⟨0, 0⟩).counters.opCalls = 2 ∧
    (forwardOp oracleOpFailThenOk (some ⟨0, 0⟩) ⟨0, 0⟩).raised = false := by
  have hthm := C1_reconnect_retry_amended oracleOpFailThenOk ⟨0, 0⟩ rfl
  have hsucc := hthm.2.2.1 rfl
  exact ⟨hthm.1, hsucc.1, hsucc.2⟩

/-- C2: when the handle's track id is a valid object path, `set_position(t)`
issues exactly one `SetPosition(trackid, t)` with that literal id and no
`Seek`; when it is invalid and the current position is `p`, it issues
exactly one `Seek(t - p)` and no `SetPosition`. -/
theorem C2_set_position_dispatch (h : HandleData) (t : Int) :
    (is_object_path_valid (player_trackid h) = true →
      set_position h t = [Call.setPositionC (player_trackid h) t] ∧
      countSeeks (set_position h t) = 0 ∧
      countSetPositions (set_position h t) = 1) ∧
    (is_object_path_valid (player_trackid h) = false →
      set_position h t = [Call.seekC (t - h.position_v)] ∧
      countSetPositions (set_position h t) = 0 ∧
      countSeeks (set_position h t) = 1) := by
  constructor <;> intro hv <;>
    simp [set_position, hv, countSeeks, countSetPositions, List.countP_cons]

/-- C2, witness: one handle with a valid track id, one whose remote omits
the id (so `trackid` degrades to `""`, which is not a valid path). -/
theorem C2_set_position_dispatch_witness :
    countSeeks (set_position hValid 100) = 0 ∧
    countSetPositions (set_position hValid 100) = 1 ∧
    countSeeks (set_position hNoTid 100) = 1 ∧
    countSetPositions (set_position hNoTid 100) = 0 := by
  have h1 := (C2_set_position_dispatch hValid 100).1 (by decide)
  have h2 := (C2_set_position_dispatch hNoTid 100).2 (by decide)
  exact ⟨h1.2.1, h1.2.2, h2.2.2, h2.2.1⟩

/-- C4, counterexample: the capability flags of `PlayerProxy` are
`cached_property`s, so querying one while no handle is attached is not
side-effect-free: it caches the `None` result, and after a handle with
`can_seek = True` is attached the same proxy still answers `None`, whereas a
proxy that was not queried while empty answers `True`. -/
theorem C4_null_safety_counterexample :
    (proxy_can_seek none none).1 = none ∧
    (proxy_can_seek none none).2 = some none ∧
    (proxy_can_seek (proxy_can_seek none none).2 (some hValid)).1 = none ∧
    (proxy_can_seek none (some hValid)).1 = some true ∧
    (proxy_can_seek (proxy_can_seek none none).2 (some hValid)).1
      ≠ (proxy_can_seek none (some hValid)).1 := by
  refine ⟨rfl, rfl, rfl, rfl, ?_⟩
  intro hcontra
  simp [proxy_can_seek, proxy_cap, hValid] at hcontra

/-- C4, amended: with no attached handle every public proxy operation
returns without raising; commands (including `connect`) are no-ops with no
underlying calls, queries return `None` — but the four capability flags,
being cached properties, additionally memoise the `None` result as their
only side effect. -/
theorem C4_null_safety_amended :
    (∀ (o : Oracle) (c : Counters), forwardOp o none c = ⟨none, c, false⟩) ∧
    (∀ (o : Oracle) (c : Counters), proxyConnect o none c = (none, c, false)) ∧
    proxy_name none = none ∧
    proxy_ext_name none = none ∧
    proxy_playback_status none = none ∧
    proxy_position none = none ∧
    proxy_metadata none = none ∧
    proxy_trackid none = none ∧
    (∀ i pr, proxy_get none i pr = (none, [])) ∧
    proxy_can_control none none = (none, some none) ∧
    proxy_can_seek none none = (none, some none) ∧
    proxy_can_pause none none = (none, some none) ∧
    proxy_can_play none none = (none, some none) :=
  ⟨fun _ _ => rfl, fun _ _ => rfl, rfl, rfl, rfl, rfl, rfl, rfl,
    fun _ _ => rfl, rfl, rfl, rfl, rfl⟩

/-- C5 (code bug): when the `pydbus` import failed, the fallback
`Player_dbus_python` construction happens inside the
`except (NameError, KeyError)` handler, so its failure (the plain
`Exception` raised by `Player_dbus_python.connect`) escapes `get_player`
unwrapped — it is not a `PlayerCreationError`.  On the pydbus path the
conversion works as the claim states, and successes return a proxy. -/
theorem C5_get_player_raw_escape :
    get_player false none (some PyExc.generic) = Except.error PyExc.generic ∧
    isCreationError PyExc.generic = false ∧
    get_player true (some PyExc.playerConnection) none
      = Except.error (PyExc.playerCreation PyExc.playerConnection) ∧
    get_player true none none = Except.ok Built.viaPydbus :=
  ⟨rfl, rfl, rfl, rfl⟩

/-- C7 (code bug): with a handle attached whose `get` answers `"Playing"`
for `PlaybackStatus`, the proxy's `get` returns `None` — its body contains
no `return` statement (and `reconnect_player` discards the inner value
anyway) — instead of the handle's value; moreover it passes its
`(interface_name, property_name)` arguments positionally into the handle's
`(property_name, interface_name)` parameters, i.e. swapped. -/
theorem C7_proxy_get_drops_value :
    (proxy_get (some hValid) "org.mpris.MediaPlayer2.Player" "PlaybackStatus").1 = none ∧
    player_get hValid "PlaybackStatus" "org.mpris.MediaPlayer2.Player" = PyV.s "Playing" ∧
    (proxy_get (some hValid) "org.mpris.MediaPlayer2.Player" "PlaybackStatus").1
      ≠ some (player_get hValid "PlaybackStatus" "org.mpris.MediaPlayer2.Player") ∧
    (proxy_get (some hValid) "org.mpris.MediaPlayer2.Player" "PlaybackStatus").2
      = [("org.mpris.MediaPlayer2.Player", "PlaybackStatus")] := by
  refine ⟨rfl, rfl, ?_, rfl⟩
  intro hcontra
  simp [proxy_get, player_get, hValid] at hcontra

/-- C9, counterexample: a forwarded call on the handle with object identity
`7` raises once and triggers the reconnect path (one `connect` call), yet
afterwards the proxy's wrapped-handle reference is still the very same
object `7` (with its connection rebuilt in place, generation `1`): the
reconnect path does not replace the proxy's own reference with a new
handle, contrary to the claim. -/
theorem C9_reference_counterexample :
    (forwardOp oracleOpFailThenOk (some ⟨7, 0⟩) ⟨0, 0⟩).counters.connectCalls = 1 ∧
    (forwardOp oracleOpFailThenOk (some ⟨7, 0⟩) ⟨0, 0⟩).player = some ⟨7, 1⟩ ∧
    ¬ (forwardOp oracleOpFailThenOk (some ⟨7, 0⟩) ⟨0, 0⟩).player.map Handle.hid ≠ some 7 := by
  decide

/-- C9, amended: the proxy's wrapped-handle reference is mutated only by
explicit `set_player` calls; every forwarded operation — including one that
triggers the reconnect path — leaves the reference pointing at the same
handle object (the reconnect path rebuilds that handle's connection in
place rather than replacing the reference). -/
theorem C9_reference_amended :
    (∀ (o : Oracle) (p : Option Handle) (c : Counters),
      (forwardOp o p c).player.map Handle.hid = p.map Handle.hid) ∧
    (∀ (p : Option Handle) (h : Handle), set_player p h = some h) := by
  refine ⟨fun o p c => ?_, fun _ _ => rfl⟩
  cases p with
  | none => rfl
  | some h =>
    cases ho : o.opRaises c.opCalls <;>
      cases hc : o.connectRaises c.connectCalls <;>
        simp [forwardOp, proxyConnect, handleConnect, ho, hc]

/-- C6: over any sequence of capability queries and reconnects during a
handle's lifetime, each capability property is fetched from the underlying
property surface at most once; querying `can_seek` twice on a fresh handle
performs exactly one underlying fetch and both queries return the same
value (whatever the remote would answer on a second fetch); and `connect`
(the in-place reconnect) never touches the cached values — only building a
new handle (`freshPState`) starts with empty caches. -/
theorem C6_capability_caching :
    (∀ (r : Remote) (steps : List CapStep),
      countFetches (capRun r steps freshPState) "CanControl" ≤ 1 ∧
      countFetches (capRun r steps freshPState) "CanSeek" ≤ 1 ∧
      countFetches (capRun r steps freshPState) "CanPause" ≤ 1 ∧
      countFetches (capRun r steps freshPState) "CanPlay" ≤ 1) ∧
    (∀ r : Remote,
      countFetches (can_seek_run r (can_seek_run r freshPState).2).2 "CanSeek" = 1 ∧
      (can_seek_run r (can_seek_run r freshPState).2).1 = (can_seek_run r freshPState).1) ∧
    (∀ s : PState,
      (pstate_connect s).cacheCC = s.cacheCC ∧
      (pstate_connect s).cacheCS = s.cacheCS ∧
      (pstate_connect s).cacheCP = s.cacheCP ∧
      (pstate_connect s).cacheCPl = s.cacheCPl ∧
      (pstate_connect s).fetchLog = s.fetchLog) := by
  refine ⟨fun r steps => ?_, fun r => ⟨rfl, rfl⟩, fun s => ⟨rfl, rfl, rfl, rfl, rfl⟩⟩
  obtain ⟨h1, h2, h3, h4⟩ := capInv_run r steps freshPState capInv_fresh
  refine ⟨?_, ?_, ?_, ?_⟩ <;> simp only [h1, h2, h3, h4] <;> split <;> omega

/-- C3: within one process run, (a) a service name present in the
unusable-service memo is never attempted again by discovery and never
occurs as a value of the returned mapping; (b) the memo only grows; and
(c) every attempted candidate whose validating construction fails with
`PlayerCreationError` is added to the memo and excluded from the returned
mapping of that call. -/
theorem C3_discovery_memo (c : String → Bool) (services memo : List String)
    (name : String) :
    (name ∈ memo →
      name ∉ (get_running_player_names c services memo).2.2 ∧
      ∀ kv ∈ (get_running_player_names c services memo).1, kv.2 ≠ name) ∧
    (∀ x ∈ memo, x ∈ (get_running_player_names c services memo).2.1) ∧
    (∀ s ∈ (get_running_player_names c services memo).2.2, c s = false →
      s ∈ (get_running_player_names c services memo).2.1 ∧
      ∀ kv ∈ (get_running_player_names c services memo).1, kv.2 ≠ s) := by
  have hgrow := grpn_memo_growth c services [] memo [] (by intro s hs; cases hs)
  have hvals := grpn_values_constructible c services [] memo [] (by intro kv hkv; cases hkv)
  refine ⟨fun hmem => ?_, hgrow.1, fun s hs hsf => ?_⟩
  · exact grpn_skips_memo c services [] memo [] name hmem (by intro hx; cases hx)
      (by intro kv hkv; cases hkv)
  · refine ⟨hgrow.2 s hs hsf, fun kv hkv hkvs => ?_⟩
    have := hvals kv hkv
    rw [hkvs, hsf] at this
    cases this

/-- Service lists used by the C3 witness. -/
def discoSvcs : List String :=
  ["org.mpris.MediaPlayer2.vlc", "org.mpris.MediaPlayer2.bad",
   "org.mpris.MediaPlayer2.ghost"]

/-- Memo already containing the `bad` service. -/
def discoMemo : List String := ["org.mpris.MediaPlayer2.bad"]

/-- Constructibility oracle of the C3 witness: only `vlc` builds. -/
def discoOk (s : String) : Bool := s == "org.mpris.MediaPlayer2.vlc"

/-- C3, witness: the memoed `bad` service is not attempted, and the failing
`ghost` service lands in the final memo. -/
theorem C3_discovery_memo_witness :
    "org.mpris.MediaPlayer2.bad"
      ∉ (get_running_player_names discoOk discoSvcs discoMemo).2.2 ∧
    "org.mpris.MediaPlayer2.ghost"
      ∈ (get_running_player_names discoOk discoSvcs discoMemo).2.1 := by
  refine ⟨(((C3_discovery_memo discoOk discoSvcs discoMemo
    "org.mpris.MediaPlayer2.bad").1) (by decide)).1, ?_⟩
  exact ((C3_discovery_memo discoOk discoSvcs discoMemo
    "org.mpris.MediaPlayer2.ghost").2.2 "org.mpris.MediaPlayer2.ghost"
    (by decide) (by decide)).1

/-- C8, counterexample: `"/a\n"` — CPython `$` also matches just before a
trailing newline, so `is_object_path_valid` accepts it, while the claim's
characterisation (segments of letters/digits/underscores only) rejects
it. -/
theorem C8_object_path_counterexample :
    is_object_path_valid ['/', 'a', '\n'] = true ∧ ¬ claimPathSpec ['/', 'a', '\n'] := by
  constructor
  · decide
  · intro hcl
    obtain ⟨-, hcl⟩ := hcl
    rcases hcl with hcl | hcl
    · exact absurd hcl (by decide)
    · have hnl := (hcl ['a', '\n'] (by decide)).2 '\n' (by decide)
      exact absurd hnl (by decide)

/-- C8, amended: `is_object_path_valid` returns `true` iff the string
starts with `/` and either equals `/` exactly or every `/`-separated
segment after the leading `/` is a nonempty run of ASCII letters, digits or
underscores, *optionally followed by one single trailing newline* (an
artefact of CPython `$`, which also matches before a trailing newline). -/
theorem C8_object_path_amended (path : List Char) :
    is_object_path_valid path = true ↔ amendedPathSpec path := by
  cases path with
  | nil => simp [is_object_path_valid, amendedPathSpec]
  | cons c rest =>
    by_cases hc : c = '/'
    · subst hc
      cases rest with
      | nil => simp [is_object_path_valid, amendedPathSpec]
      | cons d rest2 =>
        show (pySplit '/' (d :: rest2)).all segSearchOk = true ↔ _
        rw [List.all_eq_true]
        constructor
        · intro hall
          refine ⟨rfl, Or.inr fun seg hseg => ?_⟩
          exact (segSearchOk_iff seg).1 (hall seg hseg)
        · rintro ⟨-, h | h⟩
          · exact absurd h (by simp)
          · intro seg hseg
            exact (segSearchOk_iff seg).2 (h seg hseg)
    · have hbeq : (c == '/') = false := beq_eq_false_iff_ne.2 hc
      constructor
      · intro hvalid
        exact absurd hvalid (by simp [is_object_path_valid, hbeq])
      · rintro ⟨hhead, -⟩
        simp at hhead
        exact absurd hhead hc

/-- C10, counterexample: `"12:34:56\n"` — CPython `$` also matches just
before a trailing newline (and `int("56\n")` strips the whitespace), so
`to_microsecs` returns a value, while the claim requires a `ValueError` for
any string other than exactly two digits, colon, two digits, colon, two
digits. -/
theorem C10_to_microsecs_counterexample :
    to_microsecs "12:34:56\n".toList = some 45296000000 ∧
    ¬ claimTimePattern "12:34:56\n".toList := by
  constructor
  · decide
  · rintro ⟨a, b, d, e, f, g, -, -, -, -, -, -, -, -, hsh⟩
    have hlen := congrArg List.length hsh
    simp at hlen

/-- C10, amended: `to_microsecs` returns a value iff the string matches two
digits, colon, two digits with the first in `0..5`, colon, two digits with
the first in `0..5`, *optionally followed by one single trailing newline*
(an artefact of CPython `$`); in that case the result equals
`hours*3600000000 + minutes*60000000 + seconds*1000000`, and for every
other string it raises `ValueError` (modelled as `none`). -/
theorem C10_to_microsecs_amended :
    (∀ l : List Char, (to_microsecs l).isSome = true ↔ amendedTimePattern l) ∧
    (∀ a b d e f g : Char,
      a.isDigit = true → b.isDigit = true →
      '0' ≤ d → d ≤ '5' → e.isDigit = true →
      '0' ≤ f → f ≤ '5' → g.isDigit = true →
      to_microsecs [a, b, ':', d, e, ':', f, g]
          = some ((10 * digitVal a + digitVal b) * 3600000000
              + (10 * digitVal d + digitVal e) * 60000000
              + (10 * digitVal f + digitVal g) * 1000000) ∧
      to_microsecs [a, b, ':', d, e, ':', f, g, '\n']
          = some ((10 * digitVal a + digitVal b) * 3600000000
              + (10 * digitVal d + digitVal e) * 60000000
              + (10 * digitVal f + digitVal g) * 1000000)) := by
  have hval : ∀ a b d e f g : Char,
      a.isDigit = true → b.isDigit = true →
      '0' ≤ d → d ≤ '5' → e.isDigit = true →
      '0' ≤ f → f ≤ '5' → g.isDigit = true →
      (((10 * digitVal a + digitVal b) * 60
            + (10 * digitVal d + digitVal e)) * 60000000
          + (10 * digitVal f + digitVal g) * 1000000)
        = ((10 * digitVal a + digitVal b) * 3600000000
            + (10 * digitVal d + digitVal e) * 60000000
            + (10 * digitVal f + digitVal g) * 1000000) := by
    intro a b d e f g _ _ _ _ _ _ _ _
    ring
  constructor
  · intro l
    constructor
    · intro hsome
      have hts : timeSearchOk l = true := by
        by_contra hts
        rw [Bool.not_eq_true] at hts
        simp [to_microsecs, hts] at hsome
      simp only [timeSearchOk, Bool.or_eq_true, Bool.and_eq_true] at hts
      rcases hts with hcore | ⟨hlast, hcore⟩
      · obtain ⟨a, b, d, e, f, g, ha, hb, hd0, hd5, he, hf0, hf5, hg, rfl⟩ :=
          timeCore8_shape l hcore
        exact ⟨a, b, d, e, f, g, ha, hb, hd0, hd5, he, hf0, hf5, hg, Or.inl rfl⟩
      · rcases List.eq_nil_or_concat l with rfl | ⟨t, x, rfl⟩
        · exact absurd hlast (by decide)
        · have hx : x = '\n' := by
            simp only [List.concat_eq_append, List.getLast?_concat,
              beq_iff_eq, Option.some.injEq] at hlast
            exact hlast
          subst hx
          rw [List.concat_eq_append, List.dropLast_concat] at hcore
          obtain ⟨a, b, d, e, f, g, ha, hb, hd0, hd5, he, hf0, hf5, hg, rfl⟩ :=
            timeCore8_shape t hcore
          exact ⟨a, b, d, e, f, g, ha, hb, hd0, hd5, he, hf0, hf5, hg, Or.inr rfl⟩
    · rintro ⟨a, b, d, e, f, g, ha, hb, hd0, hd5, he, hf0, hf5, hg, rfl | rfl⟩
      · rw [to_microsecs_core8 a b d e f g ha hb hd0 hd5 he hf0 hf5 hg]; rfl
      · rw [to_microsecs_core8_nl a b d e f g ha hb hd0 hd5 he hf0 hf5 hg]; rfl
  · intro a b d e f g ha hb hd0 hd5 he hf0 hf5 hg
    constructor
    · rw [to_microsecs_core8 a b d e f g ha hb hd0 hd5 he hf0 hf5 hg,
        hval a b d e f g ha hb hd0 hd5 he hf0 hf5 hg]
    · rw [to_microsecs_core8_nl a b d e f g ha hb hd0 hd5 he hf0 hf5 hg,
        hval a b d e f g ha hb hd0 hd5 he hf0 hf5 hg]

/-- C10, witness for the amended theorem: `"01:02:03"` and its
newline-terminated variant both convert to `3723000000` microseconds. -/
theorem C10_to_microsecs_amended_witness :
    to_microsecs "01:02:03".toList = some 3723000000 ∧
    to_microsecs "01:02:03\n".toList = some 3723000000 := by
  have h := C10_to_microsecs_amended.2 '0' '1' '0' '2' '0' '3'
    (by decide) (by decide) (by decide) (by decide) (by decide)
    (by decide) (by decide) (by decide)
  exact ⟨h.1, h.2⟩
